import Mathlib

/-!
Verification development for `src/localization/launch_world/sim.launch.py`.

The Python module is shallowly embedded below.  Randomness is modelled by
explicit oracle parameters: `random.randint` / `random.sample` /
`random.shuffle` / `random.uniform` draws become function arguments, and the
documented contracts of those library functions (`randint 4 5 ∈ [4,5]`,
`sample` returns distinct members, `shuffle` permutes, `uniform a b` stays in
range) become hypotheses of the theorems that need them.  External subprocess
invocations (`xacro`, `gz sdf`) are modelled by an abstract runner
`run : List String → Except Int String` whose `error` case models
`subprocess.CalledProcessError` (non-zero exit status).

Numeric fields that the Python code stores as decimal strings (`str(x)`) and
re-parses with `float(...)` are modelled by their exact rational values:
`float(str(v)) == v` in Python, so the round trip is the identity.
-/

namespace SimLaunch

/-- The fixed 4-entry colour palette of `generate_balanced_colors`
(`sim.launch.py` lines 36-41). -/
def colors : List String :=
  ["1.0 1.0 0.0 1",
   "0.0 1.0 0.0 1",
   "1.0 0.0 0.0 1",
   "1.0 0.5 0.0 1"]

/-- `generate_balanced_colors` (lines 34-53).  `sampleFn` models
`random.sample`, `shuffleFn` models `random.shuffle`
(in-place shuffle modelled as returning the shuffled list).
`colors * base_count` is `(List.replicate base_count colors).join`;
Python truthiness `if remainder:` is `remainder ≠ 0`. -/
def generate_balanced_colors (num_blocks : Nat)
    (sampleFn : List String → Nat → List String)
    (shuffleFn : List String → List String) : List String :=
  let base_count := num_blocks / colors.length
  let remainder := num_blocks % colors.length
  let result := (List.replicate base_count colors).flatten
  let result := if remainder ≠ 0 then result ++ sampleFn colors remainder else result
  shuffleFn result

/-- The fixed 9-entry block-type catalog (lines 59-60). -/
def block_types : List String :=
  ["X1-Y1-Z2", "X1-Y2-Z2", "X1-Y4-Z2", "X1-Y2-Z1", "X1-Y3-Z2-FILLET",
   "X1-Y2-Z2-CHAMFER", "X1-Y3-Z2", "X1-Y2-Z2-TWINFILLET", "X1-Y4-Z1"]

/-- `generate_random_rotation` (lines 19-22): roll and pitch are 0, yaw is the
`random.uniform(0, 2*math.pi)` draw, which is the argument `r`. -/
def generate_random_rotation (r : ℚ) : ℚ × ℚ × ℚ :=
  (0, 0, r)

/-- One block placement dict built at lines 79-89.  String-encoded numeric
fields (`x`, `y`, `R`, `P`, `Y`) are modelled by their exact rational values;
`number`, `type`, `z`, `color` stay strings as in the source. -/
structure Pos where
  number : String
  type : String
  x : ℚ
  y : ℚ
  z : String
  R : ℚ
  P : ℚ
  Y : ℚ
  color : String
deriving DecidableEq

/-- `check_collision` (lines 24-32).  The source computes
`math.sqrt(dx*dx + dy*dy) < min_distance`; since `Real.sqrt` is strictly
monotone and both sides are nonnegative this equals the executable comparison
of squares used here (certified by `check_collision_iff_sqrt` below). -/
def check_collision (new_pos : Pos) (existing_positions : List Pos)
    (min_distance : ℚ) : Bool :=
  existing_positions.any fun pos =>
    let dx := new_pos.x - pos.x
    let dy := new_pos.y - pos.y
    decide (dx * dx + dy * dy < min_distance * min_distance)

/-- `base_x` (line 69). -/
def base_x : ℚ := 0.1

/-- `base_y` (line 69). -/
def base_y : ℚ := 0.45

/-- The candidate dict built from one iteration of the rejection loop
(lines 75-89): `draw = (offset_x, offset_y, uniform-yaw draw)`. -/
def mk_pos (i : Nat) (ty color : String) (draw : ℚ × ℚ × ℚ) : Pos :=
  let offset_x := draw.1
  let offset_y := draw.2.1
  let rot := generate_random_rotation draw.2.2
  { number := toString (i + 1)
    type := ty
    x := base_x + offset_x
    y := base_y + offset_y
    z := "0.88"
    R := rot.1
    P := rot.2.1
    Y := rot.2.2
    color := color }

/-- The inner `while True:` rejection loop for block `i` (lines 74-94).
`stream k` is the `k`-th triple of random draws
`(random.uniform(-0.1,0.1), random.uniform(-0.25,0.25), uniform-yaw)`;
the loop itself is unbounded, so the model is fuel-indexed: `none` means the
loop did not terminate within `fuel` draws (see the C8 theorem). -/
def place_one (ty color : String) (i : Nat) (existing : List Pos)
    (stream : Nat → ℚ × ℚ × ℚ) : Nat → Nat → Option (Pos × Nat)
  | 0, _ => none
  | fuel + 1, k =>
    let new_pos := mk_pos i ty color (stream k)
    if check_collision new_pos existing (0.15 : ℚ) then
      place_one ty color i existing stream fuel (k + 1)
    else
      some (new_pos, k + 1)

/-- The outer `for i in range(num_blocks):` loop of `spawn_block`
(lines 73-94), accumulating `existing_positions`/`blocks_config` (the two
lists receive identical appends, so one list models both).  `i` is the loop
index, `n` the remaining iterations, `k` the random-stream cursor. -/
def place_all (types cols : List String) (stream : Nat → ℚ × ℚ × ℚ)
    (fuel : Nat) : Nat → Nat → Nat → List Pos → Option (List Pos)
  | _, 0, _, acc => some acc
  | i, n + 1, k, acc =>
    match place_one (types.getD i "") (cols.getD i "") i acc stream fuel k with
    | none => none
    | some (p, k2) => place_all types cols stream fuel (i + 1) n k2 (acc ++ [p])

/-- The placement-generation half of `spawn_block` (lines 62-94):
`num_blocks` models the `random.randint(4, 5)` draw and `selected_types`
models `random.sample(block_types, num_blocks)`. -/
def spawn_block_placements (num_blocks : Nat) (selected_types cols : List String)
    (stream : Nat → ℚ × ℚ × ℚ) (fuel : Nat) : Option (List Pos) :=
  place_all selected_types cols stream fuel 0 num_blocks 0 []

/-- Substring occurrence on character lists: `contains_sub pat s` is true iff
`pat` occurs contiguously in `s` (Python `pat in s`). -/
def contains_sub (pat : List Char) : List Char → Bool
  | [] => pat.isEmpty
  | c :: rest => (c :: rest).take pat.length == pat || contains_sub pat rest

/-- Python `"</model>" in line` (line 140). -/
def has_model_close (line : String) : Bool :=
  contains_sub "</model>".toList line.toList

/-- Python semantics of `list.insert(i, x)`: a negative index counts from the
end and is clamped at 0; a nonnegative index is clamped at `len(l)`. -/
def pythonInsert {α : Type} (l : List α) (i : Int) (x : α) : List α :=
  let j : Nat := if i < 0 then (l.length + i).toNat else min i.toNat l.length
  l.take j ++ x :: l.drop j

/-- `next((i for i, line in enumerate(lines) if p line), default)` without the
default: `some` of the first index whose line satisfies `p`, else `none`. -/
def first_idx (p : String → Bool) : List String → Option Nat
  | [] => none
  | line :: rest => if p line then some 0 else (first_idx p rest).map (· + 1)

/-- The pose-publisher plugin fragment `sensor_block` (lines 129-138),
exactly the value of the Python f-string (it interpolates nothing). -/
def sensor_block : String :=
  "\n            <plugin\n                filename=\"ignition-gazebo-pose-publisher-system\"\n                name=\"ignition::gazebo::systems::PosePublisher\">\n                <publish_model_pose>true</publish_model_pose>\n                <publish_nested_model_pose>true</publish_nested_model_pose>\n                <use_pose_vector_msg>true</use_pose_vector_msg>\n                <update_frequency>100.0</update_frequency>\n            </plugin>\n            "

/-- The plugin-injection step (lines 139-142):
`insert_index = next((i for i, line in enumerate(sdf_lines) if "</model>" in line), len(sdf_lines) - 1)`
followed by `sdf_lines.insert(insert_index, sensor_block)`. -/
def insert_plugin (sdf_lines : List String) : List String :=
  let insert_index : Int :=
    match first_idx has_model_close sdf_lines with
    | some i => (i : Int)
    | none => (sdf_lines.length : Int) - 1
  pythonInsert sdf_lines insert_index sensor_block

/-- The share-directory prefix `get_package_share_directory(package_name)`
joined with `models` (lines 99-101), modelled as the fixed path `models`. -/
def models_dir : String := "models"

/-- `xacro_file` (line 99). -/
def xacro_file : String := models_dir ++ "/block.urdf.xacro"

/-- `urdf_file` for one block (line 100). -/
def urdf_file (number : String) : String :=
  models_dir ++ "/block" ++ number ++ ".urdf"

/-- `sdf_file` for one block (line 101). -/
def sdf_file (number : String) : String :=
  models_dir ++ "/block" ++ number ++ ".sdf"

/-- `xacro_command` (lines 105-111); `FindExecutable(name="xacro")` is
modelled by the fixed executable name. -/
def xacro_command (number ty color : String) : List String :=
  ["xacro", xacro_file,
   "block_name:=" ++ number,
   "block_type:=" ++ ty,
   "block_color:=" ++ color]

/-- `sdf_command` (lines 121-126). -/
def sdf_command (urdfPath : String) : List String :=
  ["gz", "sdf", "-p", urdfPath]

/-- Python `str` of a list of strings, as interpolated into
`CalledProcessError.__str__` (each element shown in single quotes). -/
def pyStrList (cmd : List String) : String :=
  "[" ++ String.intercalate ", " (cmd.map fun s => "\x27" ++ s ++ "\x27") ++ "]"

/-- `str(e)` for `e : subprocess.CalledProcessError` with a positive exit
status: `"Command '%s' returned non-zero exit status %d." % (cmd, returncode)`
(the negative-returncode "died with signal" variant is not modelled; the
claims concern non-zero exit status only). -/
def calledProcessErrorMsg (cmd : List String) (returncode : Int) : String :=
  "Command \x27" ++ (pyStrList cmd ++
    ("\x27 returned non-zero exit status " ++ (toString returncode ++ ".")))

/-- Python `str.splitlines` restricted to `\n` separators (the only line
breaks the modelled tools emit): split on `\n`, dropping the empty fragment a
trailing newline would produce. -/
def splitlines (s : String) : List String :=
  if s = "" then []
  else
    let parts := s.splitOn "\n"
    if s.endsWith "\n" then parts.dropLast else parts

/-- The two per-block launch actions built at lines 151-176: the
`robot_state_publisher` node (namespace `block<n>`, `robot_description` =
xacro output) and the `ros_gz_sim create` spawn node with its arguments. -/
inductive BlockAction where
  | robotStatePublisher (namespaceArg robot_description : String)
  | spawnCreate (name file : String) (x y : ℚ) (z : String) (R P Y : ℚ)
deriving DecidableEq

/-- The per-block body of the second `for block in blocks_config:` loop
(lines 97-176).  `run` models `subprocess.check_output`: `Except.error code`
is a `CalledProcessError` with that exit status.  The first component of the
result lists the files written (path, content) in order; the second is the
normal result (the two actions appended to `instances_cmds`) or the message
of the `RuntimeError` raised (lines 116-117, 147-148).  A raise writes no
further file: the xacro branch fails before `urdf_file` is written, the gz
branch after. -/
def process_block (run : List String → Except Int String) (block : Pos) :
    List (String × String) × Except String (List BlockAction) :=
  let xacro_cmd := xacro_command block.number block.type block.color
  match run xacro_cmd with
  | Except.error code =>
      ([], Except.error ("Error generating URDF: " ++ calledProcessErrorMsg xacro_cmd code))
  | Except.ok urdf_output =>
      let writes1 := [(urdf_file block.number, urdf_output)]
      let sdf_cmd := sdf_command (urdf_file block.number)
      match run sdf_cmd with
      | Except.error code =>
          (writes1, Except.error ("Error converting URDF to SDF: " ++ calledProcessErrorMsg sdf_cmd code))
      | Except.ok sdf_output =>
          let sdf_lines := splitlines sdf_output
          let modified_sdf_output := String.intercalate "\n" (insert_plugin sdf_lines)
          (writes1 ++ [(sdf_file block.number, modified_sdf_output)],
           Except.ok
             [BlockAction.robotStatePublisher ("block" ++ block.number) urdf_output,
              BlockAction.spawnCreate ("block" ++ block.number) (sdf_file block.number)
                block.x block.y block.z block.R block.P block.Y])

/-- The action-building loop over `blocks_config` (lines 97-178): actions of
successive blocks are concatenated into `instances_cmds`; the first raised
`RuntimeError` aborts the whole construction. -/
def build_actions (run : List String → Except Int String) :
    List Pos → Except String (List BlockAction)
  | [] => Except.ok []
  | b :: rest =>
    match (process_block run b).2 with
    | Except.error e => Except.error e
    | Except.ok acts =>
      match build_actions run rest with
      | Except.error e => Except.error e
      | Except.ok more => Except.ok (acts ++ more)

/-- One element of the list returned by `generate_launch_description`
(lines 371-390), abstracted to the constructor kind and identifying data. -/
inductive LaunchAction where
  | declareArg (name : String) (choices : List String) (defaultValue : String)
  | appendEnvVar (name : String)
  | node (pkg exe : String)
  | opaqueFn (fnName : String)
  | includeLaunch (source : String)
  | registerEventHandler (onExitOf : String)
deriving DecidableEq

/-- The ordered action list returned by `generate_launch_description`
(lines 371-390), one element per entry, in source order. -/
def generate_launch_description : List LaunchAction :=
  [LaunchAction.declareArg "ur_type"
     ["ur3", "ur3e", "ur5", "ur5e", "ur10", "ur10e", "ur16e", "ur20", "ur30"] "ur5e",
   LaunchAction.appendEnvVar "GZ_SIM_RESOURCE_PATH",
   LaunchAction.node "tf2_ros" "static_transform_publisher",
   LaunchAction.node "tf2_ros" "static_transform_publisher",
   LaunchAction.node "robot_state_publisher" "robot_state_publisher",
   LaunchAction.node "robot_state_publisher" "robot_state_publisher",
   LaunchAction.opaqueFn "spawn_block",
   LaunchAction.node "controller_manager" "spawner",
   LaunchAction.node "controller_manager" "spawner",
   LaunchAction.node "controller_manager" "spawner",
   LaunchAction.includeLaunch "gz_sim.launch.py",
   LaunchAction.node "ros_gz_sim" "create",
   LaunchAction.node "ros_gz_sim" "create",
   LaunchAction.node "ros_gz_sim" "create",
   LaunchAction.node "ros2_ur5_interface" "gripper_service",
   LaunchAction.node "ros_gz_bridge" "parameter_bridge",
   LaunchAction.node "ros_gz_image" "image_bridge",
   LaunchAction.registerEventHandler "joint_state_broadcaster_spawner"]

/-- The simulator bootstrap element: the `IncludeLaunchDescription` of
`gz_sim.launch.py` (`gazebo_launch`, lines 282-286). -/
def is_sim_bootstrap : LaunchAction → Bool
  | LaunchAction.includeLaunch _ => true
  | _ => false

/-- The element producing the per-object spawn actions:
`OpaqueFunction(function=spawn_block)` (line 378). -/
def is_spawn_producer : LaunchAction → Bool
  | LaunchAction.opaqueFn _ => true
  | _ => false

/-! ### Helper lemmas -/

theorem pythonInsert_length {α : Type} (l : List α) (i : Int) (x : α) :
    (pythonInsert l i x).length = l.length + 1 := by
  unfold pythonInsert
  have hj : (if i < 0 then ((l.length : Int) + i).toNat else min i.toNat l.length) ≤
      l.length := by
    split <;> omega
  simp only [List.length_append, List.length_take, List.length_cons, List.length_drop]
  omega

theorem pythonInsert_sublist {α : Type} (l : List α) (i : Int) (x : α) :
    l.Sublist (pythonInsert l i x) := by
  unfold pythonInsert
  conv_lhs => rw [← List.take_append_drop
    (if i < 0 then ((l.length : Int) + i).toNat else min i.toNat l.length) l]
  exact List.Sublist.append (List.Sublist.refl _) (List.sublist_cons_self _ _)

theorem first_idx_lt_length {p : String → Bool} :
    ∀ {l : List String} {i : Nat}, first_idx p l = some i → i < l.length := by
  intro l
  induction l with
  | nil => intro i h; simp [first_idx] at h
  | cons a t ih =>
    intro i h
    by_cases hp : p a
    · simp [first_idx, hp] at h
      simp only [List.length_cons]
      omega
    · simp [first_idx, hp, Option.map_eq_some'] at h
      obtain ⟨j, hj, rfl⟩ := h
      have := ih hj
      simp only [List.length_cons]
      omega

/-! ### C2 -/

/-- C2 (counterexample): the claim "the element that launches the simulator
appears earlier in the returned action list than the element that produces the
object-spawn actions" is false for `generate_launch_description`: the
`OpaqueFunction(spawn_block)` element sits at index 6 while the
`gazebo_launch` include sits at index 10, so the simulator bootstrap does not
precede the spawn producer in the list. -/
theorem C2_counterexample :
    generate_launch_description[6]? = some (LaunchAction.opaqueFn "spawn_block") ∧
    generate_launch_description[10]? =
      some (LaunchAction.includeLaunch "gz_sim.launch.py") ∧
    generate_launch_description.findIdx is_spawn_producer = 6 ∧
    generate_launch_description.findIdx is_sim_bootstrap = 10 ∧
    ¬ generate_launch_description.findIdx is_sim_bootstrap <
        generate_launch_description.findIdx is_spawn_producer := by
  decide

/-- C2 (amended): in the ordered startup plan assembled by
`generate_launch_description`, the element that produces the object-spawn
actions (`OpaqueFunction(spawn_block)`, index 6) appears earlier in the
returned action list than the element that launches the simulator
(`gazebo_launch`, index 10) — the opposite of the claimed order. -/
theorem C2_spawn_producer_precedes_bootstrap :
    generate_launch_description[6]? = some (LaunchAction.opaqueFn "spawn_block") ∧
    generate_launch_description[10]? =
      some (LaunchAction.includeLaunch "gz_sim.launch.py") ∧
    generate_launch_description.findIdx is_spawn_producer <
      generate_launch_description.findIdx is_sim_bootstrap := by
  decide

/-! ### C9 -/

/-- C9: plugin injection only inserts and never removes or rewrites: the final
line sequence produced by `insert_plugin` contains every line of the
converter output as a sublist (unchanged, in the same relative order), and its
length is exactly one more than the input's. -/
theorem C9_insertion_is_frame_preserving (lines : List String) :
    (insert_plugin lines).length = lines.length + 1 ∧
    lines.Sublist (insert_plugin lines) :=
  ⟨pythonInsert_length lines _ sensor_block, pythonInsert_sublist lines _ sensor_block⟩

/-! ### C5 -/

/-- C5: `insert_plugin` inserts `sensor_block` immediately before the first
line containing `"</model>"`; if no line contains the closing tag it inserts
before the last line (for nonempty input), and on the empty line list it still
does not fail, returning just the fragment. -/
theorem C5_plugin_injection_position (lines : List String) :
    (∀ i, first_idx has_model_close lines = some i →
        insert_plugin lines = lines.take i ++ sensor_block :: lines.drop i) ∧
    (first_idx has_model_close lines = none → lines ≠ [] →
        insert_plugin lines =
          lines.take (lines.length - 1) ++ sensor_block :: lines.drop (lines.length - 1)) ∧
    insert_plugin [] = [sensor_block] := by
  refine ⟨?_, ?_, rfl⟩
  · intro i h
    have hi : i < lines.length := first_idx_lt_length h
    unfold insert_plugin pythonInsert
    rw [h]
    have h0 : ¬ ((i : Int) < 0) := by omega
    simp only [h0, if_false, Int.toNat_natCast]
    have hmin : min i lines.length = i := by omega
    rw [hmin]
  · intro h hne
    have hlen : 1 ≤ lines.length := by
      cases lines with
      | nil => exact absurd rfl hne
      | cons a t => simp only [List.length_cons]; omega
    unfold insert_plugin pythonInsert
    rw [h]
    have h0 : ¬ (((lines.length : Int) - 1) < 0) := by omega
    simp only [h0, if_false]
    have h1 : ((lines.length : Int) - 1).toNat = lines.length - 1 := by omega
    rw [h1]
    have hmin : min (lines.length - 1) lines.length = lines.length - 1 := by omega
    rw [hmin]

/-- C5 witness: on a concrete input whose second line contains the closing
tag, the fragment lands immediately before that line; the hypotheses of
`C5_plugin_injection_position` are discharged at this input. -/
theorem C5_plugin_injection_position_witness :
    first_idx has_model_close ["<sdf>", "  </model>", "</sdf>"] = some 1 ∧
    insert_plugin ["<sdf>", "  </model>", "</sdf>"] =
      List.take 1 ["<sdf>", "  </model>", "</sdf>"] ++
        sensor_block :: List.drop 1 ["<sdf>", "  </model>", "</sdf>"] :=
  ⟨by decide, (C5_plugin_injection_position _).1 1 (by decide)⟩

/-! ### C3 -/

theorem flatten_replicate_length (m : Nat) (l : List String) :
    ((List.replicate m l).flatten).length = m * l.length := by
  induction m with
  | zero => simp
  | succ k ih =>
    simp only [List.replicate_succ, List.flatten_cons, List.length_append, ih,
      Nat.succ_mul]
    omega

theorem flatten_replicate_count (m : Nat) (l : List String) (c : String) :
    ((List.replicate m l).flatten).count c = m * l.count c := by
  induction m with
  | zero => simp
  | succ k ih =>
    simp only [List.replicate_succ, List.flatten_cons, List.count_append, ih,
      Nat.succ_mul]
    omega

theorem flatten_replicate_mem {m : Nat} {l : List String} {x : String}
    (h : x ∈ (List.replicate m l).flatten) : x ∈ l := by
  rw [List.mem_flatten] at h
  obtain ⟨l2, hl2, hx⟩ := h
  rwa [List.eq_of_mem_replicate hl2] at hx

theorem count_sum_eq_length (s : List String) (hs : ∀ x ∈ s, x ∈ colors) :
    (colors.map fun c => s.count c).sum = s.length := by
  have hnd : colors.Nodup := by decide
  rw [← List.sum_toFinset _ hnd]
  have hsub : s.toFinset ⊆ colors.toFinset := by
    intro x hx
    rw [List.mem_toFinset] at hx ⊢
    exact hs x hx
  have hzero : ∀ x ∈ colors.toFinset, x ∉ s.toFinset → s.count x = 0 := by
    intro x _ hnx
    rw [List.mem_toFinset] at hnx
    exact List.count_eq_zero.mpr hnx
  calc (colors.toFinset.sum fun c => s.count c)
      = s.toFinset.sum fun c => s.count c := (Finset.sum_subset hsub hzero).symm
    _ = s.length := List.sum_toFinset_count_eq_length s

/-- C3: `generate_balanced_colors n` (with `random.sample` and
`random.shuffle` modelled by oracles satisfying their library contracts)
returns exactly `n` labels from the fixed 4-entry palette; each palette
colour appears `n / 4` or `n / 4 + 1` times; the per-colour counts sum to
`n`; and the result is a permutation of the balanced multiset (the
`n / 4`-fold palette repetition plus the `n % 4` without-replacement
samples). -/
theorem C3_generate_balanced_colors_spec (n : Nat)
    (sampleFn : List String → Nat → List String)
    (shuffleFn : List String → List String)
    (hlen : (sampleFn colors (n % 4)).length = n % 4)
    (hnd : (sampleFn colors (n % 4)).Nodup)
    (hmem : ∀ x ∈ sampleFn colors (n % 4), x ∈ colors)
    (hsh : ∀ l : List String, (shuffleFn l).Perm l) :
    (generate_balanced_colors n sampleFn shuffleFn).length = n ∧
    (∀ x ∈ generate_balanced_colors n sampleFn shuffleFn, x ∈ colors) ∧
    (∀ c ∈ colors,
        (generate_balanced_colors n sampleFn shuffleFn).count c = n / 4 ∨
        (generate_balanced_colors n sampleFn shuffleFn).count c = n / 4 + 1) ∧
    (colors.map fun c => (generate_balanced_colors n sampleFn shuffleFn).count c).sum = n ∧
    (generate_balanced_colors n sampleFn shuffleFn).Perm
      ((List.replicate (n / 4) colors).flatten ++ sampleFn colors (n % 4)) := by
  have hcl : colors.length = 4 := by decide
  have hdef : generate_balanced_colors n sampleFn shuffleFn =
      shuffleFn (if n % 4 ≠ 0
        then (List.replicate (n / 4) colors).flatten ++ sampleFn colors (n % 4)
        else (List.replicate (n / 4) colors).flatten) := rfl
  have hperm : (generate_balanced_colors n sampleFn shuffleFn).Perm
      ((List.replicate (n / 4) colors).flatten ++ sampleFn colors (n % 4)) := by
    rw [hdef]
    by_cases hr : n % 4 ≠ 0
    · rw [if_pos hr]
      exact hsh _
    · rw [if_neg hr]
      have h0 : n % 4 = 0 := by omega
      have hnil : sampleFn colors (n % 4) = [] :=
        List.length_eq_zero.mp (hlen.trans h0)
      rw [hnil, List.append_nil]
      exact hsh _
  have hmem2 : ∀ x ∈ generate_balanced_colors n sampleFn shuffleFn, x ∈ colors := by
    intro x hx
    have hx2 := hperm.mem_iff.mp hx
    rcases List.mem_append.mp hx2 with h | h
    · exact flatten_replicate_mem h
    · exact hmem x h
  have hcount : ∀ c, (generate_balanced_colors n sampleFn shuffleFn).count c =
      (n / 4) * colors.count c + (sampleFn colors (n % 4)).count c := by
    intro c
    rw [hperm.count_eq, List.count_append, flatten_replicate_count]
  have hlength : (generate_balanced_colors n sampleFn shuffleFn).length = n := by
    rw [hperm.length_eq, List.length_append, flatten_replicate_length, hcl, hlen]
    omega
  refine ⟨hlength, hmem2, ?_, ?_, hperm⟩
  · intro c hc
    have h1 : colors.count c = 1 := by
      simp only [colors, List.mem_cons, List.not_mem_nil, or_false] at hc
      rcases hc with rfl | rfl | rfl | rfl <;> decide
    have h2 : (sampleFn colors (n % 4)).count c ≤ 1 :=
      List.nodup_iff_count_le_one.mp hnd c
    rw [hcount, h1]
    omega
  · rw [show (colors.map fun c =>
        (generate_balanced_colors n sampleFn shuffleFn).count c).sum =
        (generate_balanced_colors n sampleFn shuffleFn).length from
      count_sum_eq_length _ hmem2]
    exact hlength

/-- C3 witness: `n = 5` with `random.sample` modelled by `take` and
`random.shuffle` by the identity permutation; all contract hypotheses hold at
this instance. -/
theorem C3_generate_balanced_colors_spec_witness :
    (generate_balanced_colors 5 (fun l k => l.take k) (fun l => l)).length = 5 ∧
    (∀ x ∈ generate_balanced_colors 5 (fun l k => l.take k) (fun l => l), x ∈ colors) ∧
    (∀ c ∈ colors,
        (generate_balanced_colors 5 (fun l k => l.take k) (fun l => l)).count c = 5 / 4 ∨
        (generate_balanced_colors 5 (fun l k => l.take k) (fun l => l)).count c = 5 / 4 + 1) ∧
    (colors.map fun c =>
        (generate_balanced_colors 5 (fun l k => l.take k) (fun l => l)).count c).sum = 5 ∧
    (generate_balanced_colors 5 (fun l k => l.take k) (fun l => l)).Perm
      ((List.replicate (5 / 4) colors).flatten ++ colors.take (5 % 4)) :=
  C3_generate_balanced_colors_spec 5 (fun l k => l.take k) (fun l => l)
    (by decide) (by decide) (by decide) (fun l => List.Perm.refl l)

/-! ### Placement generator lemmas -/

theorem check_collision_eq_false_iff (p : Pos) (ex : List Pos) (d : ℚ) :
    check_collision p ex d = false ↔
      ∀ q ∈ ex, d * d ≤ (p.x - q.x) * (p.x - q.x) + (p.y - q.y) * (p.y - q.y) := by
  simp [check_collision, not_lt]

/-- Fidelity of the squared-distance comparison: for a positive threshold,
`check_collision` is `true` exactly when some existing placement is at
`Real.sqrt (dx^2 + dy^2) < d` of the candidate, which is the comparison the
Python source performs. -/
theorem check_collision_iff_sqrt (p : Pos) (ex : List Pos) (d : ℚ) (hd : 0 < d) :
    check_collision p ex d = true ↔
      ∃ q ∈ ex, Real.sqrt ((((p.x - q.x : ℚ)) : ℝ) ^ 2 + (((p.y - q.y : ℚ)) : ℝ) ^ 2)
        < (d : ℝ) := by
  simp only [check_collision, List.any_eq_true, decide_eq_true_eq]
  refine exists_congr fun q => and_congr_right fun _ => ?_
  rw [Real.sqrt_lt' (by exact_mod_cast hd), pow_two, pow_two, pow_two]
  norm_cast

theorem place_one_eq_some {ty color : String} {i : Nat} {existing : List Pos}
    {stream : Nat → ℚ × ℚ × ℚ} :
    ∀ {fuel k k2 : Nat} {p : Pos},
      place_one ty color i existing stream fuel k = some (p, k2) →
      ∃ m, k ≤ m ∧ m < k + fuel ∧ k2 = m + 1 ∧
        p = mk_pos i ty color (stream m) ∧
        check_collision p existing (0.15 : ℚ) = false := by
  intro fuel
  induction fuel with
  | zero => intro k k2 p h; simp [place_one] at h
  | succ f ih =>
    intro k k2 p h
    rw [place_one] at h
    by_cases hc : check_collision (mk_pos i ty color (stream k)) existing (0.15 : ℚ)
    · rw [if_pos hc] at h
      obtain ⟨m, hm1, hm2, hm3, hm4, hm5⟩ := ih h
      exact ⟨m, by omega, by omega, hm3, hm4, hm5⟩
    · rw [if_neg hc] at h
      obtain ⟨hp, hk⟩ := Prod.mk.injEq .. ▸ Option.some.injEq .. ▸ h
      refine ⟨k, Nat.le_refl k, by omega, hk.symm, hp.symm, ?_⟩
      rw [hp] at hc
      exact Bool.eq_false_iff.mpr hc

theorem place_all_eq_some {types cols : List String} {stream : Nat → ℚ × ℚ × ℚ}
    {fuel : Nat} :
    ∀ {n i k : Nat} {acc l : List Pos},
      place_all types cols stream fuel i n k acc = some l →
      ∃ tail : List Pos, l = acc ++ tail ∧ tail.length = n ∧
        ∀ j (hj : j < tail.length), ∃ m,
          tail.get ⟨j, hj⟩ =
            mk_pos (i + j) (types.getD (i + j) "") (cols.getD (i + j) "") (stream m) ∧
          check_collision (tail.get ⟨j, hj⟩) (acc ++ tail.take j) (0.15 : ℚ) = false := by
  intro n
  induction n with
  | zero =>
    intro i k acc l h
    simp only [place_all, Option.some.injEq] at h
    refine ⟨[], by simp [h], rfl, ?_⟩
    intro j hj
    exact absurd hj (by simp)
  | succ nn ih =>
    intro i k acc l h
    rw [place_all] at h
    cases hpo : place_one (types.getD i "") (cols.getD i "") i acc stream fuel k with
    | none => rw [hpo] at h; exact absurd h (by simp)
    | some pk =>
      obtain ⟨p, k2⟩ := pk
      rw [hpo] at h
      obtain ⟨tail2, hl, hlen2, hprop⟩ := ih h
      obtain ⟨m, _, _, _, hp, hchk⟩ := place_one_eq_some hpo
      refine ⟨p :: tail2, by rw [hl]; simp, by simp [hlen2], ?_⟩
      intro j hj
      cases j with
      | zero =>
        refine ⟨m, ?_, ?_⟩
        · simpa using hp
        · simpa using hchk
      | succ jj =>
        have hj2 : jj < tail2.length := by
          simp only [List.length_cons] at hj
          omega
        obtain ⟨m2, hm2a, hm2b⟩ := hprop jj hj2
        refine ⟨m2, ?_, ?_⟩
        · have hidx : i + 1 + jj = i + (jj + 1) := by omega
          simp only [List.get_cons_succ]
          rw [← hidx]
          exact hm2a
        · simp only [List.get_cons_succ, List.take_succ_cons]
          have hassoc : acc ++ [p] ++ tail2.take jj = acc ++ (p :: tail2.take jj) := by
            simp
          rw [← hassoc]
          exact hm2b

theorem placements_get {num_blocks fuel : Nat} {types cols : List String}
    {stream : Nat → ℚ × ℚ × ℚ} {l : List Pos}
    (hrun : spawn_block_placements num_blocks types cols stream fuel = some l) :
    l.length = num_blocks ∧
    ∀ j (hj : j < l.length), ∃ m,
      l.get ⟨j, hj⟩ = mk_pos j (types.getD j "") (cols.getD j "") (stream m) ∧
      check_collision (l.get ⟨j, hj⟩) (l.take j) (0.15 : ℚ) = false := by
  obtain ⟨tail, hl, hlen, hprop⟩ := place_all_eq_some hrun
  have hteq : l = tail := by simpa using hl
  subst hteq
  refine ⟨hlen, ?_⟩
  intro j hj
  obtain ⟨m, h1, h2⟩ := hprop j hj
  exact ⟨m, by simpa using h1, by simpa using h2⟩

theorem placements_separation {num_blocks fuel : Nat} {types cols : List String}
    {stream : Nat → ℚ × ℚ × ℚ} {l : List Pos}
    (hrun : spawn_block_placements num_blocks types cols stream fuel = some l)
    {a b : Nat} (ha : a < l.length) (hb : b < l.length) (hab : a < b) :
    (0.15 : ℚ) * 0.15 ≤
      ((l.get ⟨b, hb⟩).x - (l.get ⟨a, ha⟩).x) * ((l.get ⟨b, hb⟩).x - (l.get ⟨a, ha⟩).x) +
      ((l.get ⟨b, hb⟩).y - (l.get ⟨a, ha⟩).y) * ((l.get ⟨b, hb⟩).y - (l.get ⟨a, ha⟩).y) := by
  obtain ⟨_, hget⟩ := placements_get hrun
  obtain ⟨m, _, hchk⟩ := hget b hb
  rw [check_collision_eq_false_iff] at hchk
  apply hchk
  have h1 : a < (l.take b).length := by
    rw [List.length_take]
    omega
  have h2 : (l.take b)[a] ∈ l.take b := List.getElem_mem h1
  rw [List.getElem_take] at h2
  simpa [List.get_eq_getElem] using h2

/-- C1: for every successful run of the placement generator, any two distinct
accepted placements have planar Euclidean centre distance at least the fixed
minimum separation threshold 0.15 (each candidate having been accepted only
after `check_collision` returned `false` against all previously accepted
placements). -/
theorem C1_min_separation (num_blocks fuel : Nat) (types cols : List String)
    (stream : Nat → ℚ × ℚ × ℚ) (l : List Pos)
    (hrun : spawn_block_placements num_blocks types cols stream fuel = some l)
    (a b : Nat) (ha : a < l.length) (hb : b < l.length) (hab : a ≠ b) :
    (0.15 : ℝ) ≤ Real.sqrt
      ((((l.get ⟨a, ha⟩).x - (l.get ⟨b, hb⟩).x : ℚ) : ℝ) ^ 2 +
       (((l.get ⟨a, ha⟩).y - (l.get ⟨b, hb⟩).y : ℚ) : ℝ) ^ 2) := by
  rcases Nat.lt_or_ge a b with hlt | hge
  · have h := placements_separation hrun ha hb hlt
    apply Real.le_sqrt_of_sq_le
    have hc := (Rat.cast_le (K := ℝ)).mpr h
    push_cast at hc ⊢
    nlinarith [hc]
  · have hlt : b < a := by omega
    have h := placements_separation hrun hb ha hlt
    apply Real.le_sqrt_of_sq_le
    have hc := (Rat.cast_le (K := ℝ)).mpr h
    push_cast at hc ⊢
    nlinarith [hc]

/-- A concrete placement used by witnesses: block `i` of the run whose
`k`-th draw triple is `(k, 0, 0)`. -/
def cPos (i : Nat) : Pos :=
  mk_pos i (block_types.getD i "") (colors.getD i "") ((i : ℚ), 0, 0)

unseal Rat.add Rat.mul Rat.inv Rat.ofScientific Rat.sub in
/-- C1 witness: a concrete four-block run succeeds with one unit of fuel per
block, and the theorem applies to its first two placements. -/
theorem C1_min_separation_witness :
    spawn_block_placements 4 block_types colors (fun k => ((k : ℚ), 0, 0)) 1 =
      some [cPos 0, cPos 1, cPos 2, cPos 3] ∧
    (0.15 : ℝ) ≤ Real.sqrt
      (((((cPos 0).x - (cPos 1).x : ℚ) : ℝ)) ^ 2 +
       ((((cPos 0).y - (cPos 1).y : ℚ) : ℝ)) ^ 2) := by
  have hrun : spawn_block_placements 4 block_types colors (fun k => ((k : ℚ), 0, 0)) 1 =
      some [cPos 0, cPos 1, cPos 2, cPos 3] := by decide
  exact ⟨hrun, C1_min_separation 4 1 block_types colors _ _ hrun 0 1
    (by decide) (by decide) (by decide)⟩

/-! ### C8 -/

/-- C8: the inner rejection loop terminates exactly when the random source
eventually yields a non-colliding sample — within any fuel bound, `place_one`
succeeds iff one of the draws inspected within that bound passes
`check_collision` against the previously accepted placements — and no fuel
bound suffices in general: against an existing placement at the candidate
anchor, a constant stream keeps the loop rejecting forever, so there is no
retry cap bounding the loop. -/
theorem C8_unbounded_rejection_loop (ty color : String) (i : Nat)
    (existing : List Pos) (stream : Nat → ℚ × ℚ × ℚ) (fuel k : Nat) :
    ((place_one ty color i existing stream fuel k).isSome ↔
      ∃ n, n < fuel ∧
        check_collision (mk_pos i ty color (stream (k + n))) existing (0.15 : ℚ) = false) ∧
    (∀ f k2 : Nat,
      place_one ty color i [mk_pos i ty color (0, 0, 0)]
        (fun _ => (0, 0, 0)) f k2 = none) := by
  constructor
  · induction fuel generalizing k with
    | zero => simp [place_one]
    | succ f ih =>
      rw [place_one]
      by_cases hc : check_collision (mk_pos i ty color (stream k)) existing (0.15 : ℚ)
      · rw [if_pos hc, ih]
        constructor
        · rintro ⟨n, hn, hch⟩
          refine ⟨n + 1, by omega, ?_⟩
          rw [show k + (n + 1) = k + 1 + n by omega]
          exact hch
        · rintro ⟨n, hn, hch⟩
          cases n with
          | zero =>
            rw [Nat.add_zero] at hch
            rw [hch] at hc
            exact absurd hc (by simp)
          | succ nn =>
            refine ⟨nn, by omega, ?_⟩
            rw [show k + 1 + nn = k + (nn + 1) by omega]
            exact hch
      · rw [if_neg hc]
        constructor
        · intro _
          exact ⟨0, by omega, by rw [Nat.add_zero]; exact Bool.eq_false_iff.mpr hc⟩
        · intro _
          simp
  · have hcol : check_collision (mk_pos i ty color (0, 0, 0))
        [mk_pos i ty color (0, 0, 0)] (0.15 : ℚ) = true := by
      simp [check_collision, mk_pos, generate_random_rotation, base_x, base_y]
      norm_num
    intro f
    induction f with
    | zero => intro k2; rfl
    | succ ff ihf =>
      intro k2
      rw [place_one, if_pos hcol]
      exact ihf (k2 + 1)

/-! ### C4 -/

theorem placements_types_map {num_blocks fuel : Nat} {types cols : List String}
    {stream : Nat → ℚ × ℚ × ℚ} {l : List Pos}
    (hlen : types.length = num_blocks)
    (hrun : spawn_block_placements num_blocks types cols stream fuel = some l) :
    l.map Pos.type = types := by
  obtain ⟨hl, hget⟩ := placements_get hrun
  apply List.ext_getElem
  · simp [hl, hlen]
  · intro n h1 h2
    simp only [List.length_map] at h1
    obtain ⟨m, heq, _⟩ := hget n h1
    simp only [List.getElem_map]
    rw [show l[n] = mk_pos n (types.getD n "") (cols.getD n "") (stream m) from heq]
    show types.getD n "" = types[n]
    exact List.getD_eq_getElem types "" h2

/-- C4: with the library contracts of `random.randint(4, 5)` (the drawn count
is 4 or 5) and `random.sample(block_types, num_blocks)` (the selected types
are distinct members of the catalog, one per block), every successful run of
the placement generator produces exactly `num_blocks ∈ {4, 5}` placements
whose item types are exactly the sampled ones — pairwise distinct entries of
the fixed 9-entry catalog. -/
theorem C4_count_and_distinct_types (num_blocks fuel : Nat)
    (types cols : List String) (stream : Nat → ℚ × ℚ × ℚ) (l : List Pos)
    (hnum : num_blocks = 4 ∨ num_blocks = 5)
    (hlen : types.length = num_blocks)
    (hnd : types.Nodup)
    (hmem : ∀ t ∈ types, t ∈ block_types)
    (hrun : spawn_block_placements num_blocks types cols stream fuel = some l) :
    l.length = num_blocks ∧ l.map Pos.type = types ∧ (l.map Pos.type).Nodup ∧
    (∀ p ∈ l, p.type ∈ block_types) ∧ (num_blocks = 4 ∨ num_blocks = 5) ∧
    block_types.length = 9 := by
  obtain ⟨hl, _⟩ := placements_get hrun
  have hmap := placements_types_map hlen hrun
  refine ⟨hl, hmap, hmap.symm ▸ hnd, ?_, hnum, by decide⟩
  intro p hp
  exact hmem p.type (hmap ▸ List.mem_map_of_mem Pos.type hp)

unseal Rat.add Rat.mul Rat.inv Rat.ofScientific Rat.sub in
/-- C4 witness: the concrete four-block run of the C1 witness, with the four
sampled types being the first four catalog entries of `block_types` and the
palette as colour list; all `randint`/`sample` contract hypotheses hold. -/
theorem C4_count_and_distinct_types_witness :
    spawn_block_placements 4 (block_types.take 4) colors
        (fun k => ((k : ℚ), 0, 0)) 1 = some [cPos 0, cPos 1, cPos 2, cPos 3] ∧
    ([cPos 0, cPos 1, cPos 2, cPos 3] : List Pos).length = 4 ∧
    ([cPos 0, cPos 1, cPos 2, cPos 3] : List Pos).map Pos.type = block_types.take 4 := by
  have hrun : spawn_block_placements 4 (block_types.take 4) colors
      (fun k => ((k : ℚ), 0, 0)) 1 = some [cPos 0, cPos 1, cPos 2, cPos 3] := by
    decide
  have h := C4_count_and_distinct_types 4 1 (block_types.take 4) colors
    (fun k => ((k : ℚ), 0, 0)) [cPos 0, cPos 1, cPos 2, cPos 3]
    (Or.inl rfl) (by decide) (by decide) (by decide) hrun
  exact ⟨hrun, h.1, h.2.1⟩

/-! ### C7 -/

/-- C7 (amended): under the `random.uniform` contracts for the three draws
(x-jitter in `[-0.1, 0.1]`, y-jitter in `[-0.25, 0.25]`, yaw in `[0, 2π)`),
every placement of a successful run has `(x, y)` equal to the base anchor
`(0.1, 0.45)` plus its jitter draws (hence within the jitter bounds around the
anchor), `z` the constant string `"0.88"`, roll and pitch `0`, and yaw in
`[0, 2π)`.  The original claim's final conjunct — that yaw values are pairwise
distinct within one run — is dropped: the code never enforces it
(`C7_counterexample`). -/
theorem C7_placement_fields (num_blocks fuel : Nat) (types cols : List String)
    (stream : Nat → ℚ × ℚ × ℚ) (l : List Pos)
    (hox : ∀ k, -0.1 ≤ (stream k).1 ∧ (stream k).1 ≤ 0.1)
    (hoy : ∀ k, -0.25 ≤ (stream k).2.1 ∧ (stream k).2.1 ≤ 0.25)
    (hyaw : ∀ k, 0 ≤ (stream k).2.2 ∧ ((stream k).2.2 : ℝ) < 2 * Real.pi)
    (hrun : spawn_block_placements num_blocks types cols stream fuel = some l) :
    ∀ p ∈ l,
      base_x - 0.1 ≤ p.x ∧ p.x ≤ base_x + 0.1 ∧
      base_y - 0.25 ≤ p.y ∧ p.y ≤ base_y + 0.25 ∧
      p.z = "0.88" ∧ p.R = 0 ∧ p.P = 0 ∧
      0 ≤ p.Y ∧ (p.Y : ℝ) < 2 * Real.pi := by
  intro p hp
  obtain ⟨_, hget⟩ := placements_get hrun
  obtain ⟨⟨j, hj⟩, hpj⟩ := List.mem_iff_get.mp hp
  obtain ⟨m, heq, _⟩ := hget j hj
  rw [hpj] at heq
  subst heq
  obtain ⟨hox1, hox2⟩ := hox m
  obtain ⟨hoy1, hoy2⟩ := hoy m
  obtain ⟨hyaw1, hyaw2⟩ := hyaw m
  refine ⟨?_, ?_, ?_, ?_, rfl, rfl, rfl, hyaw1, hyaw2⟩ <;>
    simp only [mk_pos] <;> linarith

unseal Rat.add Rat.mul Rat.inv Rat.ofScientific Rat.sub in
/-- C7 witness: a one-block run with the constant zero draw; all uniform
contract hypotheses hold and the amended field properties follow for its
single placement. -/
theorem C7_placement_fields_witness :
    spawn_block_placements 1 ["X1-Y1-Z2"] ["1.0 1.0 0.0 1"]
        (fun _ => (0, 0, 0)) 1 =
      some [mk_pos 0 "X1-Y1-Z2" "1.0 1.0 0.0 1" (0, 0, 0)] ∧
    (base_x - 0.1 ≤ (mk_pos 0 "X1-Y1-Z2" "1.0 1.0 0.0 1" (0, 0, 0)).x ∧
     (mk_pos 0 "X1-Y1-Z2" "1.0 1.0 0.0 1" (0, 0, 0)).x ≤ base_x + 0.1 ∧
     base_y - 0.25 ≤ (mk_pos 0 "X1-Y1-Z2" "1.0 1.0 0.0 1" (0, 0, 0)).y ∧
     (mk_pos 0 "X1-Y1-Z2" "1.0 1.0 0.0 1" (0, 0, 0)).y ≤ base_y + 0.25 ∧
     (mk_pos 0 "X1-Y1-Z2" "1.0 1.0 0.0 1" (0, 0, 0)).z = "0.88" ∧
     (mk_pos 0 "X1-Y1-Z2" "1.0 1.0 0.0 1" (0, 0, 0)).R = 0 ∧
     (mk_pos 0 "X1-Y1-Z2" "1.0 1.0 0.0 1" (0, 0, 0)).P = 0 ∧
     0 ≤ (mk_pos 0 "X1-Y1-Z2" "1.0 1.0 0.0 1" (0, 0, 0)).Y ∧
     ((mk_pos 0 "X1-Y1-Z2" "1.0 1.0 0.0 1" (0, 0, 0)).Y : ℝ) < 2 * Real.pi) := by
  have hrun : spawn_block_placements 1 ["X1-Y1-Z2"] ["1.0 1.0 0.0 1"]
      (fun _ => (0, 0, 0)) 1 =
      some [mk_pos 0 "X1-Y1-Z2" "1.0 1.0 0.0 1" (0, 0, 0)] := by decide
  refine ⟨hrun, ?_⟩
  exact C7_placement_fields 1 1 ["X1-Y1-Z2"] ["1.0 1.0 0.0 1"] (fun _ => (0, 0, 0)) _
    (fun k => ⟨by norm_num, by norm_num⟩)
    (fun k => ⟨by norm_num, by norm_num⟩)
    (fun k => ⟨by norm_num, by simpa using Real.two_pi_pos⟩)
    hrun _ (List.mem_singleton.mpr rfl)

/-- The four catalog types used by the C7 counterexample run. -/
def cex_types : List String := ["X1-Y1-Z2", "X1-Y2-Z2", "X1-Y4-Z2", "X1-Y2-Z1"]

/-- The draw stream of the C7 counterexample run: zero x-jitter, y-jitter
stepping by exactly the separation threshold, zero yaw on every draw. -/
def cex_stream (k : Nat) : ℚ × ℚ × ℚ := (0, -0.25 + (k : ℚ) * 0.15, 0)

unseal Rat.add Rat.mul Rat.inv Rat.ofScientific Rat.sub in
/-- C7 (counterexample): the claim that all placements of one generated set
have pairwise distinct yaw values is false: the admissible draw stream
`cex_stream` (every draw within the uniform bounds, yaw 0 each time) yields a
successful four-block run whose yaw values are `[0, 0, 0, 0]` — not pairwise
distinct. -/
theorem C7_counterexample :
    (spawn_block_placements 4 cex_types colors cex_stream 1).map
        (fun L => L.map Pos.Y) = some [0, 0, 0, 0] ∧
    ¬ ([(0 : ℚ), 0, 0, 0]).Nodup ∧
    (∀ k, k < 4 → -0.1 ≤ (cex_stream k).1 ∧ (cex_stream k).1 ≤ 0.1 ∧
      -0.25 ≤ (cex_stream k).2.1 ∧ (cex_stream k).2.1 ≤ 0.25 ∧
      0 ≤ (cex_stream k).2.2) ∧
    (∀ k, ((cex_stream k).2.2 : ℝ) < 2 * Real.pi) := by
  refine ⟨by decide, by decide, by decide, ?_⟩
  intro k
  show ((0 : ℚ) : ℝ) < 2 * Real.pi
  simpa using Real.two_pi_pos

/-! ### C6 -/

theorem str_append_assoc (a b c : String) : a ++ b ++ c = a ++ (b ++ c) := by
  apply String.ext
  simp [String.data_append, List.append_assoc]

theorem urdf_ne_sdf (n : String) : urdf_file n ≠ sdf_file n := by
  intro h
  have hlen : (urdf_file n).length = (sdf_file n).length := by rw [h]
  simp only [urdf_file, sdf_file, String.length_append] at hlen
  have h1 : (".urdf" : String).length = 5 := rfl
  have h2 : (".sdf" : String).length = 4 := rfl
  omega

/-- C6: any failure of the external template-expansion (`xacro`) or
format-conversion (`gz sdf`) invocation makes `process_block` produce a fatal
error whose message embeds the underlying `CalledProcessError` detail,
including the invoked command; no retry or partial result occurs (the outcome
is exactly the error), and on any failing outcome no final-description
(`.sdf`) file has been written for that object — in the expansion-failure
case no file at all. -/
theorem C6_external_failure_is_fatal (run : List String → Except Int String)
    (b : Pos) (code : Int) :
    (run (xacro_command b.number b.type b.color) = Except.error code →
      process_block run b =
        ([], Except.error ("Error generating URDF: " ++
          calledProcessErrorMsg (xacro_command b.number b.type b.color) code)) ∧
      ∃ pre post, "Error generating URDF: " ++
          calledProcessErrorMsg (xacro_command b.number b.type b.color) code =
        pre ++ (pyStrList (xacro_command b.number b.type b.color) ++ post)) ∧
    (∀ urdf_out, run (xacro_command b.number b.type b.color) = Except.ok urdf_out →
      run (sdf_command (urdf_file b.number)) = Except.error code →
      process_block run b =
        ([(urdf_file b.number, urdf_out)],
         Except.error ("Error converting URDF to SDF: " ++
          calledProcessErrorMsg (sdf_command (urdf_file b.number)) code)) ∧
      ∃ pre post, "Error converting URDF to SDF: " ++
          calledProcessErrorMsg (sdf_command (urdf_file b.number)) code =
        pre ++ (pyStrList (sdf_command (urdf_file b.number)) ++ post)) ∧
    (∀ writes e, process_block run b = (writes, Except.error e) →
      ∀ w ∈ writes, w.1 ≠ sdf_file b.number) := by
  refine ⟨?_, ?_, ?_⟩
  · intro h
    constructor
    · simp only [process_block, h]
    · refine ⟨"Error generating URDF: " ++ "Command \x27",
        "\x27 returned non-zero exit status " ++ (toString code ++ "."), ?_⟩
      rw [calledProcessErrorMsg, str_append_assoc]
  · intro urdf_out hu hs
    constructor
    · simp only [process_block, hu, hs]
    · refine ⟨"Error converting URDF to SDF: " ++ "Command \x27",
        "\x27 returned non-zero exit status " ++ (toString code ++ "."), ?_⟩
      rw [calledProcessErrorMsg, str_append_assoc]
  · intro writes e hpe
    cases hx : run (xacro_command b.number b.type b.color) with
    | error cx =>
      simp only [process_block, hx] at hpe
      obtain ⟨hw, _⟩ := Prod.mk.injEq .. ▸ hpe
      rw [← hw]
      intro w hw2
      exact absurd hw2 (by simp)
    | ok u =>
      cases hs : run (sdf_command (urdf_file b.number)) with
      | error cs =>
        simp only [process_block, hx, hs] at hpe
        obtain ⟨hw, _⟩ := Prod.mk.injEq .. ▸ hpe
        rw [← hw]
        intro w hw2
        rw [List.mem_singleton] at hw2
        rw [hw2]
        exact urdf_ne_sdf b.number
      | ok s =>
        simp only [process_block, hx, hs] at hpe
        obtain ⟨_, hbad⟩ := Prod.mk.injEq .. ▸ hpe
        exact absurd hbad (by simp)

/-! ### C10 -/

theorem placements_numbers {num_blocks fuel : Nat} {types cols : List String}
    {stream : Nat → ℚ × ℚ × ℚ} {l : List Pos}
    (hrun : spawn_block_placements num_blocks types cols stream fuel = some l) :
    l.map Pos.number = (List.range num_blocks).map fun j => toString (j + 1) := by
  obtain ⟨hl, hget⟩ := placements_get hrun
  apply List.ext_getElem
  · simp [hl]
  · intro n h1 h2
    simp only [List.length_map] at h1
    obtain ⟨m, heq, _⟩ := hget n h1
    simp only [List.getElem_map, List.getElem_range]
    rw [show l[n] = mk_pos n (types.getD n "") (cols.getD n "") (stream m) from heq]
    rfl

theorem build_actions_ok (run : List String → Except Int String)
    (hok : ∀ c : List String, ∃ s, run c = Except.ok s) :
    ∀ blocks : List Pos, ∃ acts, build_actions run blocks = Except.ok acts ∧
      acts.length = 2 * blocks.length ∧
      ∀ j (hj : j < blocks.length), ∃ urdf_out,
        run (xacro_command (blocks.get ⟨j, hj⟩).number (blocks.get ⟨j, hj⟩).type
            (blocks.get ⟨j, hj⟩).color) = Except.ok urdf_out ∧
        acts[2 * j]? = some (BlockAction.robotStatePublisher
            ("block" ++ (blocks.get ⟨j, hj⟩).number) urdf_out) ∧
        acts[2 * j + 1]? = some (BlockAction.spawnCreate
            ("block" ++ (blocks.get ⟨j, hj⟩).number)
            (sdf_file (blocks.get ⟨j, hj⟩).number)
            (blocks.get ⟨j, hj⟩).x (blocks.get ⟨j, hj⟩).y (blocks.get ⟨j, hj⟩).z
            (blocks.get ⟨j, hj⟩).R (blocks.get ⟨j, hj⟩).P (blocks.get ⟨j, hj⟩).Y) := by
  intro blocks
  induction blocks with
  | nil => exact ⟨[], rfl, rfl, fun j hj => absurd hj (by simp)⟩
  | cons b rest ih =>
    obtain ⟨acts2, hba, hlen, hprop⟩ := ih
    obtain ⟨u, hu⟩ := hok (xacro_command b.number b.type b.color)
    obtain ⟨s, hs⟩ := hok (sdf_command (urdf_file b.number))
    refine ⟨BlockAction.robotStatePublisher ("block" ++ b.number) u ::
      BlockAction.spawnCreate ("block" ++ b.number) (sdf_file b.number)
        b.x b.y b.z b.R b.P b.Y :: acts2, ?_, ?_, ?_⟩
    · simp only [build_actions, process_block, hu, hs, hba]
      rfl
    · simp only [List.length_cons, hlen]
      omega
    · intro j hj
      cases j with
      | zero => exact ⟨u, hu, by simp, by simp⟩
      | succ jj =>
        have hj2 : jj < rest.length := by
          simp only [List.length_cons] at hj
          omega
        obtain ⟨u2, hu2, ha, hb⟩ := hprop jj hj2
        refine ⟨u2, by simpa using hu2, ?_, ?_⟩
        · rw [show 2 * (jj + 1) = 2 * jj + 1 + 1 by omega]
          simp only [List.getElem?_cons_succ, List.get_cons_succ]
          exact ha
        · rw [show 2 * (jj + 1) + 1 = 2 * jj + 1 + 1 + 1 by omega]
          simp only [List.getElem?_cons_succ, List.get_cons_succ]
          exact hb

/-- C10: for a successful run with `K` accepted blocks and all external
invocations succeeding, `spawn_block`'s action-building loop returns exactly
`2 K` actions; for each block ordinal, the `robot_state_publisher` node for
that block appears immediately before that block's spawn action (indices
`2 j` and `2 j + 1`); and the per-object file paths `block<n>.urdf` /
`block<n>.sdf` of all blocks are pairwise distinct within the launch. -/
theorem C10_spawn_actions_shape (num_blocks fuel : Nat) (types cols : List String)
    (stream : Nat → ℚ × ℚ × ℚ) (l : List Pos)
    (run : List String → Except Int String)
    (hnum : num_blocks = 4 ∨ num_blocks = 5)
    (hrun : spawn_block_placements num_blocks types cols stream fuel = some l)
    (hok : ∀ c : List String, ∃ s, run c = Except.ok s) :
    ∃ acts, build_actions run l = Except.ok acts ∧
      acts.length = 2 * num_blocks ∧
      (∀ j (hj : j < l.length), ∃ urdf_out,
        acts[2 * j]? = some (BlockAction.robotStatePublisher
            ("block" ++ (l.get ⟨j, hj⟩).number) urdf_out) ∧
        acts[2 * j + 1]? = some (BlockAction.spawnCreate
            ("block" ++ (l.get ⟨j, hj⟩).number) (sdf_file (l.get ⟨j, hj⟩).number)
            (l.get ⟨j, hj⟩).x (l.get ⟨j, hj⟩).y (l.get ⟨j, hj⟩).z
            (l.get ⟨j, hj⟩).R (l.get ⟨j, hj⟩).P (l.get ⟨j, hj⟩).Y)) ∧
      (l.map fun b2 => [urdf_file b2.number, sdf_file b2.number]).flatten.Nodup := by
  obtain ⟨hl, _⟩ := placements_get hrun
  obtain ⟨acts, h1, h2, h3⟩ := build_actions_ok run hok l
  refine ⟨acts, h1, by rw [h2, hl], ?_, ?_⟩
  · intro j hj
    obtain ⟨u, _, ha, hb⟩ := h3 j hj
    exact ⟨u, ha, hb⟩
  · have hnums := placements_numbers hrun
    have hmm : (l.map fun b2 => [urdf_file b2.number, sdf_file b2.number]) =
        (l.map Pos.number).map fun s => [urdf_file s, sdf_file s] := by
      rw [List.map_map]
      rfl
    rw [hmm, hnums]
    rcases hnum with rfl | rfl <;> decide

/-- C6 witness: with a runner whose every invocation exits with status 2, the
expansion-failure branch of `C6_external_failure_is_fatal` applies: no file is
written and the fatal message embeds the command failure detail. -/
theorem C6_external_failure_is_fatal_witness :
    process_block (fun _ => Except.error 2) (cPos 0) =
      ([], Except.error ("Error generating URDF: " ++
        calledProcessErrorMsg
          (xacro_command (cPos 0).number (cPos 0).type (cPos 0).color) 2)) :=
  ((C6_external_failure_is_fatal (fun _ => Except.error 2) (cPos 0) 2).1 rfl).1

unseal Rat.add Rat.mul Rat.inv Rat.ofScientific Rat.sub in
/-- C10 witness: the concrete four-block run of the C1 witness with a runner
that always succeeds; all hypotheses of `C10_spawn_actions_shape` hold at this
instance. -/
theorem C10_spawn_actions_shape_witness :
    ∃ acts, build_actions (fun _ => Except.ok "<xml/>")
        [cPos 0, cPos 1, cPos 2, cPos 3] = Except.ok acts ∧
      acts.length = 2 * 4 ∧
      (∀ j (hj : j < ([cPos 0, cPos 1, cPos 2, cPos 3] : List Pos).length),
        ∃ urdf_out,
        acts[2 * j]? = some (BlockAction.robotStatePublisher
            ("block" ++ (([cPos 0, cPos 1, cPos 2, cPos 3] : List Pos).get
              ⟨j, hj⟩).number) urdf_out) ∧
        acts[2 * j + 1]? = some (BlockAction.spawnCreate
            ("block" ++ (([cPos 0, cPos 1, cPos 2, cPos 3] : List Pos).get
              ⟨j, hj⟩).number)
            (sdf_file (([cPos 0, cPos 1, cPos 2, cPos 3] : List Pos).get
              ⟨j, hj⟩).number)
            (([cPos 0, cPos 1, cPos 2, cPos 3] : List Pos).get ⟨j, hj⟩).x
            (([cPos 0, cPos 1, cPos 2, cPos 3] : List Pos).get ⟨j, hj⟩).y
            (([cPos 0, cPos 1, cPos 2, cPos 3] : List Pos).get ⟨j, hj⟩).z
            (([cPos 0, cPos 1, cPos 2, cPos 3] : List Pos).get ⟨j, hj⟩).R
            (([cPos 0, cPos 1, cPos 2, cPos 3] : List Pos).get ⟨j, hj⟩).P
            (([cPos 0, cPos 1, cPos 2, cPos 3] : List Pos).get ⟨j, hj⟩).Y)) ∧
      (([cPos 0, cPos 1, cPos 2, cPos 3] : List Pos).map
          fun b2 => [urdf_file b2.number, sdf_file b2.number]).flatten.Nodup :=
  C10_spawn_actions_shape 4 1 block_types colors (fun k => ((k : ℚ), 0, 0))
    [cPos 0, cPos 1, cPos 2, cPos 3] (fun _ => Except.ok "<xml/>")
    (Or.inl rfl) (by decide) (fun c => ⟨"<xml/>", rfl⟩)

end SimLaunch
